import Mathlib

/-!
Verification development for the Hidden Geometry Removal add-on
(src/HiddenGeometryRemoval.py).

The development is layered, each layer a shallow embedding of one part of
the source:

* a geometric layer over the reals for the per-sample-point visibility test
  (lines 159-183 of the source) and for the camera-rig generator
  (lines 36-102);
* a combinatorial layer for the per-camera frontier loop of
  select_visible_faces_multi_cameras (lines 113-189), with the geometric
  per-face test, face similarity and the random sampler abstracted as
  parameters;
* a scene layer for the operator OBJECT_OT_hidden_geometry_removal.execute
  (lines 339-402) over a concrete, computable scene model with rational
  vertex coordinates.
-/

set_option maxHeartbeats 1000000

namespace HGR

/-! ### Geometric layer: vectors -/

/-- Three-dimensional real vector, standing in for mathutils.Vector. -/
structure Vec3 where
  x : ℝ
  y : ℝ
  z : ℝ

namespace Vec3

/-- Componentwise subtraction, as in point - cam_location. -/
def sub (a b : Vec3) : Vec3 := ⟨a.x - b.x, a.y - b.y, a.z - b.z⟩

/-- Scalar multiple of a vector. -/
def smul (c : ℝ) (a : Vec3) : Vec3 := ⟨c * a.x, c * a.y, c * a.z⟩

/-- Dot product. -/
def dot (a b : Vec3) : ℝ := a.x * b.x + a.y * b.y + a.z * b.z

/-- Euclidean length, as in mathutils Vector.length. -/
noncomputable def len (a : Vec3) : ℝ := Real.sqrt (dot a a)

/-- Normalized vector, as in mathutils Vector.normalized: the vector divided
by its length (the zero vector stays zero, since division by zero is zero). -/
noncomputable def normalized (a : Vec3) : Vec3 := smul (1 / len a) a

/-- Angle between two vectors, as in mathutils Vector.angle
(arccos of the normalized dot product). -/
noncomputable def angle (a b : Vec3) : ℝ := Real.arccos (dot a b / (len a * len b))

/-- Zero vector (the world origin). -/
def zero : Vec3 := ⟨0, 0, 0⟩

end Vec3

/-! ### Geometric layer: the per-sample-point test (source lines 159-183)

The host primitive scene.ray_cast is abstracted as an oracle returning, for
an origin and a direction, the location of the nearest hit when one exists
(the source uses result[0], the hit flag, and result[1], the hit location). -/

/-- Ray-cast oracle: origin and direction to optional nearest-hit location. -/
def RayOracle : Type := Vec3 → Vec3 → Option Vec3

section GeometricLayer

open Classical

/-- Shallow embedding of the loop `for point in points_to_check` at source
lines 159-183 for one face: the running select flag starts false; a point is
ray cast only after the cone pre-filter `angle < cam_fov / 2` passes; on a
hit closer than 0.001 to the point the face is selected and the loop breaks.
Returns the final select flag together with the list of points that were
actually ray cast.  The neighbor expansion in the selected branch acts on
the frontier only and is modelled in the combinatorial layer. -/
noncomputable def checkPoints (oracle : RayOracle) (camLoc camDir : Vec3) (camFov : ℝ) :
    List Vec3 → Bool × List Vec3
  | [] => (false, [])
  | p :: ps =>
    if Vec3.angle (Vec3.normalized (Vec3.sub p camLoc)) camDir < camFov / 2 then
      match oracle camLoc (Vec3.normalized (Vec3.sub p camLoc)) with
      | some hit =>
        if Vec3.len (Vec3.sub hit p) < 0.001 then (true, [p])
        else
          let r := checkPoints oracle camLoc camDir camFov ps
          (r.1, p :: r.2)
      | none =>
        let r := checkPoints oracle camLoc camDir camFov ps
        (r.1, p :: r.2)
    else checkPoints oracle camLoc camDir camFov ps

/-- Definition following the claim's words: a sample point passes for a
camera iff the angle between normalize(point - cameraPosition) and the
camera forward direction is strictly below the half field of view, and the
ray cast toward the point reports a first hit within 0.001 world units of
the point. -/
noncomputable def samplePassesSpec (oracle : RayOracle) (camLoc camDir : Vec3) (camFov : ℝ)
    (p : Vec3) : Prop :=
  Vec3.angle (Vec3.normalized (Vec3.sub p camLoc)) camDir < camFov / 2 ∧
  ∃ hit, oracle camLoc (Vec3.normalized (Vec3.sub p camLoc)) = some hit ∧
    Vec3.len (Vec3.sub hit p) < 0.001

/-! ### Geometric layer: camera rig (source lines 36-102) -/

/-- Conversion from degrees to radians, as in math.radians. -/
noncomputable def radiansOf (d : ℝ) : ℝ := d * Real.pi / 180

/-- Camera pose: the created camera object's location.  Its orientation is
recovered through cameraForward below. -/
structure CameraPose where
  location : Vec3

/-- Position on the sphere computed at source lines 43-51 from a row angle,
a height angle (both in degrees) and a radius. -/
noncomputable def cameraPosition (rowAngle heightAngle radius : ℝ) : Vec3 :=
  let heightRad := radiansOf heightAngle
  let rowRad := radiansOf rowAngle
  ⟨radius * Real.cos heightRad * Real.cos rowRad,
   radius * Real.cos heightRad * Real.sin rowRad,
   radius * Real.sin heightRad⟩

/-- Shallow embedding of create_camera_ring (source lines 36-69): one camera
per height angle, positioned on the sphere.  Collection linking and naming
are host bookkeeping with no geometric content. -/
noncomputable def create_camera_ring (rowAngle : ℝ) (cameraHeights : List ℝ) (radius : ℝ) :
    List CameraPose :=
  cameraHeights.map fun h => ⟨cameraPosition rowAngle h radius⟩

/-- Height angles computed at source lines 85-93: with
camerasPerHalf = camerasPerRow / 2 (integer division) and
step = 90 / (camerasPerHalf + 1), emit the pair [step * (i+1), -step * (i+1)]
for each i below camerasPerHalf. -/
noncomputable def heightAngles (camerasPerRow : ℕ) : List ℝ :=
  let camerasPerHalf := camerasPerRow / 2
  let step : ℝ := 90 / ((camerasPerHalf : ℝ) + 1)
  (List.range camerasPerHalf).flatMap fun i => [step * ((i : ℝ) + 1), -(step * ((i : ℝ) + 1))]

/-- Shallow embedding of create_camera_setup (source lines 72-102): one ring
per row, rows spaced 360 / rows degrees apart.  The source performs no
parameter validation of any kind: this is a total function. -/
noncomputable def create_camera_setup (rows camerasPerRow : ℕ) (radius : ℝ) :
    List CameraPose :=
  let rowAngleStep : ℝ := 360 / (rows : ℝ)
  (List.range rows).flatMap fun i =>
    create_camera_ring ((i : ℝ) * rowAngleStep) (heightAngles camerasPerRow) radius

/-- Forward (viewing) direction of a created camera.  Source line 66 orients
the camera with location.to_track_quat('Z', 'Y'), whose defining property is
that the object's local +Z axis is rotated onto the location vector; a
Blender camera looks along local -Z, and select_visible_faces_multi_cameras
reads the forward direction back at source line 137 as the world rotation
applied to (0, 0, -1).  Hence forward = -normalized(location). -/
noncomputable def cameraForward (c : CameraPose) : Vec3 :=
  Vec3.smul (-1) (Vec3.normalized c.location)

end GeometricLayer

/-! ### Combinatorial layer: select_visible_faces_multi_cameras
(source lines 113-189)

Faces are identified by natural numbers (their index in the mesh face
table).  The geometric outcome of the per-face sample loop for a given
camera is abstracted as a Boolean predicate `vis` (for a fixed scene it is a
deterministic function of the camera and the face); are_faces_similar is
abstracted as `similar`; the faces linked to a face through its vertices
(neighbor.link_faces at source lines 177-178) as `nbrs`; and random.sample
as the parameter `sampler`. -/

/-- Context of one camera pass with the geometric tests abstracted. -/
structure EngineCtx where
  similar : ℕ → ℕ → Bool
  nbrs : ℕ → List ℕ
  experimental : Bool

/-- Addition to a Python set represented as a duplicate-free list: append
the element when it is absent. -/
def insertIfAbsent (f : ℕ) (l : List ℕ) : List ℕ :=
  if f ∈ l then l else l ++ [f]

/-- Conditional push of one linked face onto the frontier (the body of the
double loop at source lines 177-182): the face is added when it is not yet
checked, not yet selected, and similar in normal to the current face. -/
def expandStep (ctx : EngineCtx) (cur : ℕ) (checked selected : Finset ℕ)
    (fr : List ℕ) (g : ℕ) : List ℕ :=
  if g ∉ checked ∧ g ∉ selected ∧ ctx.similar cur g then insertIfAbsent g fr else fr

/-- Neighbor expansion at source lines 176-182: each face linked to the
current face is pushed onto the frontier when it is not yet checked, not yet
selected, and similar in normal to the current face.  At that point in the
source the current face is already in checked_faces (line 151) and already
selected (line 173). -/
def expand (ctx : EngineCtx) (cur : ℕ) (frontier : List ℕ)
    (checked selected : Finset ℕ) : List ℕ :=
  (ctx.nbrs cur).foldl (expandStep ctx cur checked selected) frontier

/-- Shallow embedding of the while loop at source lines 144-183 for one
camera, with explicit fuel: pop a face from the frontier; skip it when
already checked or already selected; otherwise record it checked, and when
the per-face visibility test passes, select it and (in experimental mode)
expand to similar linked faces.  The first component reports whether the
loop ran to completion (frontier exhausted) within the given fuel; the
second is the final selected set. -/
def visitLoop (ctx : EngineCtx) (vis : ℕ → Bool) :
    ℕ → List ℕ → Finset ℕ → Finset ℕ → Bool × Finset ℕ
  | 0, frontier, _, selected => (frontier.isEmpty, selected)
  | _ + 1, [], _, selected => (true, selected)
  | fuel + 1, f :: fr, checked, selected =>
    if f ∈ checked ∨ f ∈ selected then
      visitLoop ctx vis fuel fr checked selected
    else
      if vis f then
        visitLoop ctx vis fuel
          (if ctx.experimental then expand ctx f fr (insert f checked) (insert f selected)
           else fr)
          (insert f checked) (insert f selected)
      else
        visitLoop ctx vis fuel fr (insert f checked) selected

/-- One camera pass (source lines 135-183): the frontier is re-initialized
from the seed face list, checked_faces starts empty, and the accumulated
selected set is carried in. -/
def cameraPass (ctx : EngineCtx) (vis : ℕ → Bool) (fuel : ℕ) (seeds : List ℕ)
    (selected : Finset ℕ) : Finset ℕ :=
  (visitLoop ctx vis fuel seeds ∅ selected).2

/-- Iteration over the camera list (source line 135): a pass per camera,
each seeded from the same seed list, threading the selected set. -/
def processCameras (ctx : EngineCtx) (visAll : ℕ → ℕ → Bool) (cams : List ℕ)
    (fuel : ℕ) (seeds : List ℕ) (selected : Finset ℕ) : Finset ℕ :=
  cams.foldl (fun sel cam => cameraPass ctx (visAll cam) fuel seeds sel) selected

/-- Fuelled base-2 logarithm: the fuel bounds the recursion depth and the
value itself is always a sufficient bound. -/
def log2Aux : ℕ → ℕ → ℕ
  | 0, _ => 0
  | fuel + 1, n => if 2 ≤ n then log2Aux fuel (n / 2) + 1 else 0

/-- Floor of the base-2 logarithm (0 at 0). -/
def natLog2 (n : ℕ) : ℕ := log2Aux n n

/-- Smallest t with num * 2^t at least den, by fuelled doubling (for
1 <= num the answer is at most den, so den is sufficient fuel). -/
def findScaleAux : ℕ → ℕ → ℕ → ℕ
  | 0, _, _ => 0
  | fuel + 1, num, den => if den ≤ num then 0 else findScaleAux fuel (num * 2) den + 1

/-- Smallest t with num * 2^t at least den. -/
def findScale (num den : ℕ) : ℕ := findScaleAux den num den

/-- Rounding of p / q (q positive) to the nearest integer, ties to the even
neighbour. -/
def roundNearestEven (p q : ℕ) : ℕ :=
  let n := p / q
  let r := p % q
  if 2 * r < q then n
  else if q < 2 * r then n + 1
  else if n % 2 = 0 then n else n + 1

/-- IEEE-754 binary64 rounding of the nonnegative rational num / den: the
exact value is scaled so that its significand occupies 53 bits (the leading
bit at position 52, found through the floored base-2 logarithm of the
quotient, or through doubling for values below 1), rounded to the nearest
integer with ties to even, and scaled back.  Exact for the normal range,
which covers every value this development feeds it. -/
def floatRound (num den : ℕ) : ℚ :=
  if num = 0 ∨ den = 0 then 0
  else
    let e : ℤ := if den ≤ num then (natLog2 (num / den) : ℤ) else -(findScale num den : ℤ)
    if 52 ≤ e then
      Rat.divInt ((roundNearestEven num (den * 2 ^ (e - 52).toNat) : ℕ) *
        ((2 ^ (e - 52).toNat : ℕ) : ℤ)) 1
    else
      Rat.divInt (roundNearestEven (num * 2 ^ (52 - e).toNat) den : ℕ)
        ((2 ^ (52 - e).toNat : ℕ) : ℤ)

/-- Binary64 rounding of a nonnegative rational. -/
def floatRoundQ (x : ℚ) : ℚ := floatRound x.num.toNat x.den

/-- Seed-set size at source line 128: max(1, int(total_faces *
(sampling_ratio / 100))).  The inner expression is computed in double
precision: sampling_ratio / 100 is true division of ints, correctly rounded
to binary64; the product with total_faces (whose conversion to float is
exact below 2^53) is again correctly rounded to binary64; and int()
truncates toward zero.  Because of the rounding this is not in general the
exact floor of totalFaces * samplingRatio / 100: at totalFaces = 100 and
samplingRatio = 29 the float product is 28.999999999999996... and int()
gives 28, where the exact floor is 29. -/
def sample_count (totalFaces samplingRatio : ℕ) : ℕ :=
  let r1 := floatRound samplingRatio 100
  let r2 := floatRoundQ (Rat.divInt ((totalFaces : ℤ) * r1.num) (r1.den : ℤ))
  max 1 (r2.num.toNat / r2.den)

/-- Definition following the claim's words: seed-set size
max(1, ceil(totalFaces * samplingRatio / 100)). -/
def sampleCountCeilSpec (totalFaces samplingRatio : ℕ) : ℕ :=
  max 1 ((totalFaces * samplingRatio + 99) / 100)

/-- Deselection of every face at source lines 121-122: whatever selection
the mesh carried in, the run starts from the empty selected set. -/
def deselectAll (_prior : Finset ℕ) : Finset ℕ := (∅ : Finset ℕ)

/-- Failure raised by the host library: random.sample raises ValueError when
the requested sample size exceeds the population size. -/
inductive RunError where
  | sampleTooLarge
deriving DecidableEq, Repr

deriving instance DecidableEq for Except

/-- Seed faces for the run (source lines 127-133): in experimental mode a
random sample of sample_count faces, drawn once, before any camera is
processed; otherwise all faces.  random.sample fails when the requested
count exceeds the population, which happens exactly on a mesh with zero
faces (sample_count is at least 1). -/
def initialFacesOf (sampler : List ℕ → ℕ → List ℕ) (experimental : Bool)
    (samplingRatio : ℕ) (faces : List ℕ) : Except RunError (List ℕ) :=
  if experimental then
    if sample_count faces.length samplingRatio ≤ faces.length then
      Except.ok (sampler faces (sample_count faces.length samplingRatio))
    else
      Except.error RunError.sampleTooLarge
  else
    Except.ok faces

/-- Fuel sufficient for every camera pass over a mesh with n faces (see the
termination theorem for claim C7). -/
def engineFuel (n : ℕ) : ℕ := n + (n + 1) * n + 1

/-- Shallow embedding of select_visible_faces_multi_cameras (source lines
113-189) over the abstract face table [0, totalFaces): clear the selection,
draw the seed faces once, then run one pass per camera, every pass seeded
from the same list. -/
def select_visible_faces_multi_cameras (ctx : EngineCtx) (visAll : ℕ → ℕ → Bool)
    (sampler : List ℕ → ℕ → List ℕ) (samplingRatio : ℕ) (cams : List ℕ)
    (totalFaces : ℕ) (priorSel : Finset ℕ) : Except RunError (Finset ℕ) :=
  (initialFacesOf sampler ctx.experimental samplingRatio (List.range totalFaces)).map
    fun seeds =>
      processCameras ctx visAll cams (engineFuel totalFaces) seeds (deselectAll priorSel)

/-! ### Scene layer: the operator (source lines 192-244 and 334-402)

A computable scene model: objects carry an identifier, a type tag, mesh data
(vertex coordinates over the rationals, faces as vertex-index lists) and the
per-face select flags.  Host operations used by execute are modelled over
this state. -/

/-- Type tag of a scene object (obj.type in the source). -/
inductive ObjType where
  | meshObj
  | cameraObj
  | otherObj
deriving DecidableEq, Repr

/-- Mesh data: vertex positions and faces as vertex-index lists. -/
structure MeshData where
  verts : List (ℚ × ℚ × ℚ)
  faces : List (List ℕ)
deriving DecidableEq, Repr

/-- Scene object: identifier, type, mesh data and face-select flags. -/
structure SceneObj where
  id : ℕ
  type : ObjType
  mesh : MeshData
  sel : Finset ℕ
deriving DecidableEq

/-- Scene state: object list, active-object pointer, presence of the
"Cameras" collection, and a counter from which fresh object identifiers are
drawn (every existing identifier of a well-formed scene is below it). -/
structure Scene where
  objects : List SceneObj
  active : Option ℕ
  hasCamCollection : Bool
  nextId : ℕ
deriving DecidableEq

/-- Mesh with no vertices and no faces. -/
def emptyMesh : MeshData := ⟨[], []⟩

/-- First object carrying the given identifier. -/
def sceneObjById (s : Scene) (i : ℕ) : Option SceneObj :=
  s.objects.find? fun o => o.id == i

/-- Object the active pointer resolves to (context.active_object). -/
def activeObj (s : Scene) : Option SceneObj :=
  s.active.bind (sceneObjById s)

/-- Mesh data of the object with the given identifier. -/
def objMeshById (s : Scene) (i : ℕ) : Option MeshData :=
  (sceneObjById s i).map SceneObj.mesh

/-- Select flags of the object with the given identifier. -/
def objSelById (s : Scene) (i : ℕ) : Option (Finset ℕ) :=
  (sceneObjById s i).map SceneObj.sel

/-- Delete/select mode of the operator (delete_select_mode property). -/
inductive DeleteSelectMode where
  | delete
  | outerSelect
deriving DecidableEq, Repr

/-- Operator parameters read from the property group (source lines
247-331).  Precision and the flatness angle act only through the abstracted
visibility and similarity predicates; the sphere radius acts only through
the geometric layer. -/
structure Props where
  rows : ℕ
  cameras_per_row : ℕ
  delete_select_mode : DeleteSelectMode
  keep_cameras : Bool
  experimental : Bool
  sampling_ratio : ℕ
  merge_meshes : Bool
  merge_by_distance : Bool
deriving DecidableEq, Repr

/-- Operator return status (the set returned by execute in the source). -/
inductive OpStatus where
  | finished
  | cancelled
deriving DecidableEq, Repr

/-- Update of the object carrying the given identifier. -/
def mapObjAt (i : ℕ) (g : SceneObj → SceneObj) (s : Scene) : Scene :=
  { s with objects := s.objects.map fun o => if o.id = i then g o else o }

/-- Join of two meshes (bpy.ops.object.join): vertices concatenated, the
second mesh's face indices offset past the first mesh's vertices. -/
def joinMesh (a b : MeshData) : MeshData :=
  { verts := a.verts ++ b.verts
  , faces := a.faces ++ b.faces.map fun f => f.map fun v => v + a.verts.length }

/-- Shallow embedding of merge_all_meshes (source lines 221-244): with no
mesh object in the scene return none and leave the scene as is (only the
object-selection flags, which this model does not track, were touched);
otherwise join every mesh object into the first one, make it active, and
return it. -/
def merge_all_meshes (s : Scene) : Option ℕ × Scene :=
  match s.objects.find? (fun o => o.type == ObjType.meshObj) with
  | none => (none, s)
  | some m0 =>
    let meshes := s.objects.filter fun o => o.type == ObjType.meshObj
    let joined := (meshes.drop 1).foldl (fun acc o => joinMesh acc o.mesh) m0.mesh
    let objs := s.objects.filterMap fun o =>
      if o.type == ObjType.meshObj then
        if o.id == m0.id then some { o with mesh := joined } else none
      else some o
    (some m0.id, { s with objects := objs, active := some m0.id })

/-- Shallow embedding of delete_all_cameras (source lines 204-218): every
camera object in the data is removed, whether or not this tool created it,
and the "Cameras" collection is removed. -/
def delete_all_cameras (s : Scene) : Scene :=
  { s with objects := s.objects.filter fun o => !(o.type == ObjType.cameraObj)
         , hasCamCollection := false }

/-- Number of cameras create_camera_setup produces:
rows * (2 * (cameras_per_row / 2)) with integer division. -/
def camCount (rows camerasPerRow : ℕ) : ℕ :=
  rows * (2 * (camerasPerRow / 2))

/-- Scene effect of create_camera_setup (source lines 72-102): camCount new
camera objects with fresh identifiers are linked into the scene.  Their
geometry lives in the geometric layer. -/
def create_cameras (rows camerasPerRow : ℕ) (s : Scene) : List ℕ × Scene :=
  let n := camCount rows camerasPerRow
  let ids := (List.range n).map fun k => s.nextId + k
  (ids,
   { s with objects := s.objects ++ ids.map fun i => ⟨i, ObjType.cameraObj, emptyMesh, ∅⟩
          , nextId := s.nextId + n })

/-- Two faces share a vertex index. -/
def sharesVertex (f g : List ℕ) : Bool :=
  f.any fun v => g.contains v

/-- Faces linked to a face through its vertices: the union over the face's
vertices of the faces using that vertex (neighbor.link_faces at source
lines 177-178, which includes the face itself; the frontier is a set, so
the set of linked faces is what matters). -/
def linkFaces (m : MeshData) (f : ℕ) : List ℕ :=
  match m.faces.get? f with
  | some vf =>
    (List.range m.faces.length).filter fun g =>
      match m.faces.get? g with
      | some vg => sharesVertex vf vg
      | none => false
  | none => []

/-- Engine context for a concrete mesh. -/
def ctxOfMesh (similar : ℕ → ℕ → Bool) (experimental : Bool) (m : MeshData) : EngineCtx :=
  ⟨similar, linkFaces m, experimental⟩

/-- Scene-level wrapper of select_visible_faces_multi_cameras: run the
engine on the target object's mesh and write the computed select flags back
(bm.to_mesh at source line 185), returning the total face count.  On the
random.sample failure nothing is written back, faithfully to the source
where the exception fires at line 130, before bm.to_mesh. -/
def scene_select_visible (visAll : ℕ → ℕ → Bool) (similar : ℕ → ℕ → Bool)
    (sampler : List ℕ → ℕ → List ℕ) (props : Props) (objId : ℕ) (cams : List ℕ)
    (s : Scene) : Except RunError (ℕ × Scene) :=
  match sceneObjById s objId with
  | none => Except.ok (0, s)
  | some o =>
    let total := o.mesh.faces.length
    (select_visible_faces_multi_cameras (ctxOfMesh similar props.experimental o.mesh)
        visAll sampler props.sampling_ratio cams total o.sel).map
      fun newSel => (total, mapObjAt objId (fun ob => { ob with sel := newSel }) s)

/-- Shallow embedding of delete_invisible_faces (source lines 192-201): the
selected (visible) faces are kept, every other face is deleted, and then
every edge and vertex no longer referenced by a kept face is deleted, with
surviving vertices re-indexed in order. -/
def delete_invisible_faces (m : MeshData) (sel : Finset ℕ) : MeshData :=
  let kept := (List.range m.faces.length).filterMap fun i =>
    if i ∈ sel then m.faces.get? i else none
  let used := (List.range m.verts.length).filter fun v => kept.any fun f => f.contains v
  { verts := used.filterMap fun v => m.verts.get? v
  , faces := kept.map fun f => f.map fun v => used.indexOf v }

/-- Difference of two rationals, built on the numerator and denominator so
that concrete values evaluate by reduction. -/
def qSub (a b : ℚ) : ℚ :=
  Rat.divInt (a.num * (b.den : ℤ) - b.num * (a.den : ℤ)) ((a.den : ℤ) * (b.den : ℤ))

/-- Product of two rationals, built on the numerator and denominator so
that concrete values evaluate by reduction. -/
def qMul (a b : ℚ) : ℚ :=
  Rat.divInt (a.num * b.num) ((a.den : ℤ) * (b.den : ℤ))

/-- Sum of two rationals, built on the numerator and denominator so that
concrete values evaluate by reduction. -/
def qAdd (a b : ℚ) : ℚ :=
  Rat.divInt (a.num * (b.den : ℤ) + b.num * (a.den : ℤ)) ((a.den : ℤ) * (b.den : ℤ))

/-- Squared distance between vertex positions. -/
def distSq (a b : ℚ × ℚ × ℚ) : ℚ :=
  qAdd
    (qAdd (qMul (qSub a.1 b.1) (qSub a.1 b.1))
      (qMul (qSub a.2.1 b.2.1) (qSub a.2.1 b.2.1)))
    (qMul (qSub a.2.2 b.2.2) (qSub a.2.2 b.2.2))

/-- Squared weld threshold: remove_doubles is invoked with
threshold 0.0001 at source line 385, and 0.0001 squared is 1 / 10^8. -/
def weldEps2 : ℚ := Rat.divInt 1 100000000

/-- Modelled from the spec: bpy.ops.mesh.remove_doubles is a host primitive
whose code is not in the repository; per the spec's weld step it merges
vertices closer than the weld epsilon.  Each vertex is replaced by its
earliest representative within the threshold and faces are re-indexed. -/
def remove_doubles (m : MeshData) : MeshData :=
  let rep : ℕ → ℕ := fun i =>
    match m.verts.get? i with
    | none => i
    | some vi =>
      (((List.range (i + 1)).find? fun j =>
          match m.verts.get? j with
          | some vj => distSq vi vj ≤ weldEps2
          | none => false)).getD i
  let kept := (List.range m.verts.length).filter fun i => rep i == i
  { verts := kept.filterMap fun v => m.verts.get? v
  , faces := m.faces.map fun f => f.map fun v => kept.indexOf (rep v) }

/-- Effect of bpy.ops.mesh.select_all(action='SELECT') on the target mesh
(source lines 384 and 390): every face becomes selected. -/
def selectAllFaces (objId : ℕ) (s : Scene) : Scene :=
  mapObjAt objId (fun o => { o with sel := Finset.range o.mesh.faces.length }) s

/-- Target object of the run (source lines 343-351): the merged object when
merge_meshes is set, the active object otherwise, together with the scene
after the optional merge. -/
def targetObj (props : Props) (s : Scene) : Option SceneObj × Scene :=
  if props.merge_meshes then
    let r := merge_all_meshes s
    (r.1.bind (sceneObjById r.2), r.2)
  else (activeObj s, s)

/-- Shallow embedding of OBJECT_OT_hidden_geometry_removal.execute (source
lines 339-402): optional merge; cancel with an ERROR report when the target
is missing or not a mesh; delete every existing camera; create the rig; run
the visibility engine; delete invisible faces in delete mode; weld when
merge_by_distance is set; select all faces for the statistics count; delete
the cameras again unless keep_cameras. -/
def execute (visAll : ℕ → ℕ → Bool) (similar : ℕ → ℕ → Bool)
    (sampler : List ℕ → ℕ → List ℕ) (props : Props) (s0 : Scene) :
    Except RunError (OpStatus × Scene) :=
  let t := targetObj props s0
  match t.1 with
  | none => Except.ok (OpStatus.cancelled, t.2)
  | some o =>
    if o.type = ObjType.meshObj then
      let s2 := delete_all_cameras t.2
      let r3 := create_cameras props.rows props.cameras_per_row s2
      match scene_select_visible visAll similar sampler props o.id r3.1 r3.2 with
      | Except.error e => Except.error e
      | Except.ok (_total, s4) =>
        let s5 :=
          if props.delete_select_mode = DeleteSelectMode.delete then
            mapObjAt o.id
              (fun ob => { ob with mesh := delete_invisible_faces ob.mesh ob.sel
                                 , sel := ∅ }) s4
          else s4
        let s6 :=
          if props.merge_by_distance then
            mapObjAt o.id (fun ob => { ob with mesh := remove_doubles ob.mesh })
              (selectAllFaces o.id s5)
          else s5
        let s7 := selectAllFaces o.id s6
        let s8 := if props.keep_cameras then s7 else delete_all_cameras s7
        Except.ok (OpStatus.finished, s8)
    else Except.ok (OpStatus.cancelled, t.2)

/-- Status of an operator run, when it did not raise. -/
def runStatusOf (r : Except RunError (OpStatus × Scene)) : Option OpStatus :=
  r.toOption.map Prod.fst

/-- Scene after an operator run, when it did not raise. -/
def runSceneOf (r : Except RunError (OpStatus × Scene)) : Option Scene :=
  r.toOption.map Prod.snd

/-- Presence of an object with the given identifier. -/
def sceneHasObjId (s : Scene) (i : ℕ) : Bool :=
  s.objects.any fun o => o.id == i

/-- Check used by counterexamples: the run finished normally and the object
with the given identifier is gone from the final scene. -/
def finishedWithoutObj (r : Except RunError (OpStatus × Scene)) (i : ℕ) : Bool :=
  match r with
  | Except.ok (OpStatus.finished, s) => !(sceneHasObjId s i)
  | _ => false

/-! ### Claim C1 -/

/-- C1: for every camera and every sample point of a face, the sample is ray
cast only when the angle between normalize(point - cameraPosition) and the
camera forward direction is strictly below the camera's half field of view,
and the face is marked visible iff some sample's ray cast reports a first
hit whose distance from the sample point is below 0.001 world units. -/
theorem C1_sample_raycast_and_epsilon (oracle : RayOracle) (camLoc camDir : Vec3)
    (camFov : ℝ) (pts : List Vec3) :
    (∀ p ∈ (checkPoints oracle camLoc camDir camFov pts).2,
        Vec3.angle (Vec3.normalized (Vec3.sub p camLoc)) camDir < camFov / 2) ∧
    ((checkPoints oracle camLoc camDir camFov pts).1 = true ↔
      ∃ p ∈ pts, samplePassesSpec oracle camLoc camDir camFov p) := by
  induction pts with
  | nil => simp [checkPoints]
  | cons p ps ih =>
    obtain ⟨ih1, ih2⟩ := ih
    by_cases hang : Vec3.angle (Vec3.normalized (Vec3.sub p camLoc)) camDir < camFov / 2
    · rcases horc : oracle camLoc (Vec3.normalized (Vec3.sub p camLoc)) with _ | hit
      · refine ⟨?_, ?_⟩
        · intro q hq
          simp only [checkPoints, horc, if_pos hang] at hq
          rcases List.mem_cons.mp hq with h | h
          · exact h ▸ hang
          · exact ih1 q h
        · simp only [checkPoints, horc, if_pos hang]
          rw [ih2]
          constructor
          · rintro ⟨q, hq, hqp⟩
            exact ⟨q, List.mem_cons_of_mem _ hq, hqp⟩
          · rintro ⟨q, hq, hqp⟩
            rcases List.mem_cons.mp hq with h | hq'
            · obtain ⟨hit, hhit, _⟩ := (h ▸ hqp : samplePassesSpec oracle camLoc camDir camFov p).2
              rw [horc] at hhit
              cases hhit
            · exact ⟨q, hq', hqp⟩
      · by_cases hd : Vec3.len (Vec3.sub hit p) < 0.001
        · refine ⟨?_, ?_⟩
          · intro q hq
            simp only [checkPoints, horc, if_pos hang, if_pos hd] at hq
            rcases List.mem_singleton.mp hq with h
            exact h ▸ hang
          · simp only [checkPoints, horc, if_pos hang, if_pos hd]
            constructor
            · intro _
              exact ⟨p, List.mem_cons_self p ps, hang, hit, horc, hd⟩
            · intro _
              trivial
        · refine ⟨?_, ?_⟩
          · intro q hq
            simp only [checkPoints, horc, if_pos hang, if_neg hd] at hq
            rcases List.mem_cons.mp hq with h | h
            · exact h ▸ hang
            · exact ih1 q h
          · simp only [checkPoints, horc, if_pos hang, if_neg hd]
            rw [ih2]
            constructor
            · rintro ⟨q, hq, hqp⟩
              exact ⟨q, List.mem_cons_of_mem _ hq, hqp⟩
            · rintro ⟨q, hq, hqp⟩
              rcases List.mem_cons.mp hq with h | hq'
              · obtain ⟨hit2, hhit2, hd2⟩ := (h ▸ hqp : samplePassesSpec oracle camLoc camDir camFov p).2
                rw [horc] at hhit2
                cases hhit2
                exact absurd hd2 hd
              · exact ⟨q, hq', hqp⟩
    · refine ⟨?_, ?_⟩
      · intro q hq
        simp only [checkPoints, if_neg hang] at hq
        exact ih1 q hq
      · simp only [checkPoints, if_neg hang]
        rw [ih2]
        constructor
        · rintro ⟨q, hq, hqp⟩
          exact ⟨q, List.mem_cons_of_mem _ hq, hqp⟩
        · rintro ⟨q, hq, hqp⟩
          rcases List.mem_cons.mp hq with h | hq'
          · exact absurd (h ▸ hqp : samplePassesSpec oracle camLoc camDir camFov p).1 hang
          · exact ⟨q, hq', hqp⟩

/-! ### Claims C2 and C3 -/

/-- Length of a flatMap whose pieces all have the same length. -/
lemma length_flatMap_const {α β : Type} (l : List α) (f : α → List β) (c : ℕ)
    (h : ∀ a ∈ l, (f a).length = c) : (l.flatMap f).length = l.length * c := by
  induction l with
  | nil => simp
  | cons a t ih =>
    simp only [List.flatMap_cons, List.length_append, List.length_cons]
    rw [h a (List.mem_cons_self a t), ih fun x hx => h x (List.mem_cons_of_mem a hx)]
    ring

/-- The height-angle list has 2 * (camerasPerRow / 2) entries. -/
lemma heightAngles_length (camerasPerRow : ℕ) :
    (heightAngles camerasPerRow).length = 2 * (camerasPerRow / 2) := by
  unfold heightAngles
  rw [length_flatMap_const _ _ 2 (by intro a _; rfl), List.length_range]
  ring

/-- The rig generator always returns rows * (2 * (camerasPerRow / 2))
cameras, whatever the parameters. -/
lemma create_camera_setup_length (rows camerasPerRow : ℕ) (radius : ℝ) :
    (create_camera_setup rows camerasPerRow radius).length =
      rows * (2 * (camerasPerRow / 2)) := by
  unfold create_camera_setup create_camera_ring
  rw [length_flatMap_const _ _ (2 * (camerasPerRow / 2)) ?_, List.length_range]
  intro a _
  rw [List.length_map, heightAngles_length]

/-- Distance of a generated camera position from the origin. -/
lemma len_cameraPosition (rowAngle heightAngle : ℝ) {radius : ℝ} (h : 0 ≤ radius) :
    Vec3.len (cameraPosition rowAngle heightAngle radius) = radius := by
  have h1 := Real.sin_sq_add_cos_sq (radiansOf heightAngle)
  have h2 := Real.sin_sq_add_cos_sq (radiansOf rowAngle)
  have hd : Vec3.dot (cameraPosition rowAngle heightAngle radius)
      (cameraPosition rowAngle heightAngle radius) = radius ^ 2 := by
    simp only [cameraPosition, Vec3.dot]
    linear_combination (radius ^ 2 * Real.cos (radiansOf heightAngle) ^ 2) * h2 +
      radius ^ 2 * h1
  rw [Vec3.len, hd, Real.sqrt_sq h]

/-- C2: for rows at least 2, even camerasPerRow at least 2 and positive
radius, the rig generator produces exactly rows * camerasPerRow cameras,
each at distance radius from the origin, each with forward vector a
positive multiple (1 / radius) of the vector from its position to the
origin. -/
theorem C2_camera_rig (rows camerasPerRow : ℕ) (radius : ℝ)
    (hrows : 2 ≤ rows) (heven : camerasPerRow % 2 = 0) (hcpr : 2 ≤ camerasPerRow)
    (hrad : 0 < radius) :
    (create_camera_setup rows camerasPerRow radius).length = rows * camerasPerRow ∧
    ∀ cam ∈ create_camera_setup rows camerasPerRow radius,
      Vec3.len cam.location = radius ∧
      cameraForward cam = Vec3.smul (1 / radius) (Vec3.sub Vec3.zero cam.location) := by
  constructor
  · rw [create_camera_setup_length, Nat.mul_div_cancel' (Nat.dvd_of_mod_eq_zero heven)]
  · intro cam hcam
    simp only [create_camera_setup, create_camera_ring, List.mem_flatMap, List.mem_map,
      List.mem_range] at hcam
    obtain ⟨i, _, hA, _, rfl⟩ := hcam
    have hlen : Vec3.len (cameraPosition ((i : ℝ) * (360 / (rows : ℝ))) hA radius) = radius :=
      len_cameraPosition _ _ hrad.le
    refine ⟨hlen, ?_⟩
    simp only [cameraForward, Vec3.normalized, hlen, Vec3.smul, Vec3.sub, Vec3.zero,
      Vec3.mk.injEq]
    refine ⟨by ring, by ring, by ring⟩

/-- C2 witness: the rig with rows = 2, camerasPerRow = 2, radius = 1. -/
theorem C2_camera_rig_witness :
    2 ≤ 2 ∧ 2 % 2 = 0 ∧ 2 ≤ 2 ∧ (0 : ℝ) < 1 ∧
    ((create_camera_setup 2 2 1).length = 2 * 2 ∧
     ∀ cam ∈ create_camera_setup 2 2 (1 : ℝ),
       Vec3.len cam.location = 1 ∧
       cameraForward cam = Vec3.smul (1 / 1) (Vec3.sub Vec3.zero cam.location)) :=
  ⟨le_refl 2, rfl, le_refl 2, one_pos,
    C2_camera_rig 2 2 1 (le_refl 2) rfl (le_refl 2) one_pos⟩

/-- C3 counterexample: the generator does not fail on malformed parameters.
Given the odd camerasPerRow 3 (with valid rows 2 and radius 1) it silently
returns 4 cameras, and given the non-positive radius 0 (with valid rows 2
and camerasPerRow 2) it likewise returns 4 cameras; the source
create_camera_setup contains no parameter check and raises nothing, so its
embedding is a total function with no failure outcome at all. -/
theorem C3_counterexample :
    (create_camera_setup 2 3 (1 : ℝ)).length = 4 ∧
    (create_camera_setup 2 2 (0 : ℝ)).length = 4 := by
  rw [create_camera_setup_length, create_camera_setup_length]
  norm_num

/-- C3 amended: the rig generator performs no parameter validation and
never fails; for every rows, camerasPerRow and radius — including odd
camerasPerRow and non-positive radius — it returns a camera list of length
exactly rows * (2 * (camerasPerRow / 2)).  Parameter clamping happens only
in the UI property definitions (min 2, step 2, min radius 0.1). -/
theorem C3_no_validation (rows camerasPerRow : ℕ) (radius : ℝ) :
    (create_camera_setup rows camerasPerRow radius).length =
      rows * (2 * (camerasPerRow / 2)) :=
  create_camera_setup_length rows camerasPerRow radius

/-! ### Engine lemmas for claims C4 to C7 -/

/-- Membership after a set-style add. -/
lemma mem_insertIfAbsent {a b : ℕ} {l : List ℕ} :
    a ∈ insertIfAbsent b l ↔ a ∈ l ∨ a = b := by
  unfold insertIfAbsent
  by_cases h : b ∈ l
  · rw [if_pos h]
    constructor
    · exact Or.inl
    · rintro (ha | rfl)
      · exact ha
      · exact h
  · rw [if_neg h]
    simp [List.mem_append]

/-- Set-style add keeps the frontier duplicate-free. -/
lemma nodup_insertIfAbsent {b : ℕ} {l : List ℕ} (h : l.Nodup) :
    (insertIfAbsent b l).Nodup := by
  unfold insertIfAbsent
  by_cases hb : b ∈ l
  · rwa [if_pos hb]
  · rw [if_neg hb]
    simp [List.nodup_append, h, hb]

/-- Everything in the folded frontier comes from the frontier or the
neighbor list. -/
lemma mem_foldl_expandStep (ctx : EngineCtx) (cur : ℕ) (checked selected : Finset ℕ) :
    ∀ (nl fr : List ℕ) (a : ℕ),
      a ∈ List.foldl (expandStep ctx cur checked selected) fr nl → a ∈ fr ∨ a ∈ nl := by
  intro nl
  induction nl with
  | nil =>
    intro fr a h
    exact Or.inl h
  | cons g t ih =>
    intro fr a h
    rw [List.foldl_cons] at h
    rcases ih _ a h with h' | h'
    · unfold expandStep at h'
      split at h'
      · rcases mem_insertIfAbsent.mp h' with h'' | rfl
        · exact Or.inl h''
        · exact Or.inr (List.mem_cons_self _ _)
      · exact Or.inl h'
    · exact Or.inr (List.mem_cons_of_mem _ h')

/-- The folded frontier stays duplicate-free. -/
lemma nodup_foldl_expandStep (ctx : EngineCtx) (cur : ℕ) (checked selected : Finset ℕ) :
    ∀ (nl fr : List ℕ), fr.Nodup →
      (List.foldl (expandStep ctx cur checked selected) fr nl).Nodup := by
  intro nl
  induction nl with
  | nil =>
    intro fr h
    exact h
  | cons g t ih =>
    intro fr h
    rw [List.foldl_cons]
    apply ih
    unfold expandStep
    split
    · exact nodup_insertIfAbsent h
    · exact h

/-- A duplicate-free list of members of a finite set is no longer than the
set's cardinality. -/
lemma nodup_length_le_card {l : List ℕ} {s : Finset ℕ} (hn : l.Nodup)
    (hs : ∀ a ∈ l, a ∈ s) : l.length ≤ s.card := by
  calc l.length = l.toFinset.card := (List.toFinset_card_of_nodup hn).symm
  _ ≤ s.card := Finset.card_le_card fun a ha => hs a (List.mem_toFinset.mp ha)

/-- The selected set only grows during a camera pass: no iteration of the
while loop ever removes a face from it. -/
lemma visitLoop_mono (ctx : EngineCtx) (vis : ℕ → Bool) :
    ∀ (fuel : ℕ) (fr : List ℕ) (checked selected : Finset ℕ),
      selected ⊆ (visitLoop ctx vis fuel fr checked selected).2 := by
  intro fuel
  induction fuel with
  | zero =>
    intro fr checked selected
    exact Finset.Subset.refl _
  | succ n ih =>
    intro fr checked selected
    cases fr with
    | nil => exact Finset.Subset.refl _
    | cons f fr =>
      simp only [visitLoop]
      by_cases hskip : f ∈ checked ∨ f ∈ selected
      · rw [if_pos hskip]
        exact ih fr checked selected
      · rw [if_neg hskip]
        by_cases hv : vis f = true
        · rw [if_pos hv]
          exact (Finset.subset_insert f selected).trans (ih _ _ _)
        · rw [if_neg hv]
          exact ih fr (insert f checked) selected

/-- The selected set only grows across camera passes. -/
lemma processCameras_mono (ctx : EngineCtx) (visAll : ℕ → ℕ → Bool) :
    ∀ (cams : List ℕ) (fuel : ℕ) (seeds : List ℕ) (selected : Finset ℕ),
      selected ⊆ processCameras ctx visAll cams fuel seeds selected := by
  intro cams
  induction cams with
  | nil =>
    intro fuel seeds selected
    exact Finset.Subset.refl _
  | cons cam cams ih =>
    intro fuel seeds selected
    unfold processCameras at ih ⊢
    rw [List.foldl_cons]
    exact (visitLoop_mono ctx (visAll cam) fuel seeds ∅ selected).trans (ih fuel seeds _)

/-- Splitting a run over an appended camera list. -/
lemma processCameras_append (ctx : EngineCtx) (visAll : ℕ → ℕ → Bool)
    (cams extra : List ℕ) (fuel : ℕ) (seeds : List ℕ) (selected : Finset ℕ) :
    processCameras ctx visAll (cams ++ extra) fuel seeds selected =
      processCameras ctx visAll extra fuel seeds
        (processCameras ctx visAll cams fuel seeds selected) := by
  unfold processCameras
  rw [List.foldl_append]

/-! ### Claim C4 -/

/-- C4 counterexample: on a mesh of 3 faces with samplingRatio 50 the code
draws max(1, int(3 * 0.5)) = 1 seed face (int truncates; 3 * 0.5 = 1.5 is
exact in binary64), while the claim's formula max(1, ceil(3 * 50 / 100))
gives 2.  The final conjunct pins the float semantics of the model: at 100
faces and ratio 29 the double product is 28.999999999999996... and the code
draws 28 seeds, one fewer than the exact floor 29. -/
theorem C4_counterexample :
    sample_count 3 50 = 1 ∧ sampleCountCeilSpec 3 50 = 2 ∧
      sample_count 3 50 ≠ sampleCountCeilSpec 3 50 ∧
      sample_count 100 29 = 28 := by
  decide

/-- C4 amended: in experimental (RandomizedExpansion) mode the seed set has
size max(1, int(totalFaces * (samplingRatio / 100))) computed in binary64
floating point — truncation of the rounded double product, which is neither
the claim's ceiling nor in general the exact floor (100 faces at ratio 29
give 28 seeds, not 29) — and it is drawn exactly once per run, before any
camera is processed, whenever it fits the face count (otherwise
random.sample raises); every camera's frontier is then re-initialized from
that same seed list. -/
theorem C4_seed_drawn_once (ctx : EngineCtx) (visAll : ℕ → ℕ → Bool)
    (sampler : List ℕ → ℕ → List ℕ) (ratio : ℕ) (cams : List ℕ) (total : ℕ)
    (prior : Finset ℕ) (hexp : ctx.experimental = true)
    (hsampler : ∀ (l : List ℕ) (k : ℕ), k ≤ l.length → (sampler l k).length = k)
    (hk : sample_count total ratio ≤ total) :
    ∃ seeds : List ℕ,
      seeds = sampler (List.range total) (sample_count total ratio) ∧
      seeds.length = sample_count total ratio ∧
      select_visible_faces_multi_cameras ctx visAll sampler ratio cams total prior =
        Except.ok
          (cams.foldl
            (fun sel cam => cameraPass ctx (visAll cam) (engineFuel total) seeds sel) ∅) := by
  refine ⟨sampler (List.range total) (sample_count total ratio), rfl, ?_, ?_⟩
  · rw [hsampler _ _ (by rwa [List.length_range])]
  · unfold select_visible_faces_multi_cameras initialFacesOf
    rw [hexp, List.length_range]
    rw [if_pos rfl, if_pos hk]
    rfl

/-- C4 witness: 3 faces, ratio 50, a take-prefix sampler, one camera. -/
theorem C4_seed_drawn_once_witness :
    ∃ seeds : List ℕ,
      seeds = (fun (l : List ℕ) (k : ℕ) => l.take k) (List.range 3) (sample_count 3 50) ∧
      seeds.length = sample_count 3 50 ∧
      select_visible_faces_multi_cameras ⟨fun _ _ => false, fun _ => [], true⟩
          (fun _ _ => true) (fun (l : List ℕ) (k : ℕ) => l.take k) 50 [0] 3 ∅ =
        Except.ok
          ([0].foldl
            (fun sel cam =>
              cameraPass ⟨fun _ _ => false, fun _ => [], true⟩ ((fun _ _ => true) cam)
                (engineFuel 3) seeds sel) ∅) :=
  C4_seed_drawn_once ⟨fun _ _ => false, fun _ => [], true⟩ (fun _ _ => true)
    (fun l k => l.take k) 50 [0] 3 ∅ rfl
    (fun l k h => by rw [List.length_take]; omega)
    (by decide)

/-! ### Claim C5 -/

/-- C5: the per-face visible mark starts false for every face — the run
maps any prior selection to the empty selected set and proceeds from there —
and is monotonic: no iteration of a camera pass removes a face from the
selected set, and the set only grows across camera passes, so a face found
visible from an earlier camera stays visible while every later camera
runs. -/
theorem C5_marks_init_false_and_monotonic :
    (∀ (ctx : EngineCtx) (visAll : ℕ → ℕ → Bool) (sampler : List ℕ → ℕ → List ℕ)
       (ratio : ℕ) (cams : List ℕ) (total : ℕ) (prior : Finset ℕ),
        select_visible_faces_multi_cameras ctx visAll sampler ratio cams total prior =
          (initialFacesOf sampler ctx.experimental ratio (List.range total)).map
            fun seeds => processCameras ctx visAll cams (engineFuel total) seeds ∅) ∧
    (∀ (ctx : EngineCtx) (vis : ℕ → Bool) (fuel : ℕ) (seeds : List ℕ)
       (selected : Finset ℕ), selected ⊆ cameraPass ctx vis fuel seeds selected) ∧
    (∀ (ctx : EngineCtx) (visAll : ℕ → ℕ → Bool) (cams : List ℕ) (fuel : ℕ)
       (seeds : List ℕ) (selected : Finset ℕ),
        selected ⊆ processCameras ctx visAll cams fuel seeds selected) := by
  refine ⟨fun _ _ _ _ _ _ _ => rfl, ?_, ?_⟩
  · intro ctx vis fuel seeds selected
    exact visitLoop_mono ctx vis fuel seeds ∅ selected
  · intro ctx visAll cams fuel seeds selected
    exact processCameras_mono ctx visAll cams fuel seeds selected

/-! ### Claim C6 -/

/-- C6: extending the camera list never shrinks the visible-face set — if a
run over cams succeeds with visible set s, the run over cams ++ extra
succeeds with a superset of s. -/
theorem C6_more_cameras_superset (ctx : EngineCtx) (visAll : ℕ → ℕ → Bool)
    (sampler : List ℕ → ℕ → List ℕ) (ratio : ℕ) (cams extra : List ℕ) (total : ℕ)
    (prior : Finset ℕ) (s : Finset ℕ)
    (h : select_visible_faces_multi_cameras ctx visAll sampler ratio cams total prior =
      Except.ok s) :
    ∃ s' : Finset ℕ,
      select_visible_faces_multi_cameras ctx visAll sampler ratio (cams ++ extra) total
          prior = Except.ok s' ∧ s ⊆ s' := by
  unfold select_visible_faces_multi_cameras at h ⊢
  cases hinit : initialFacesOf sampler ctx.experimental ratio (List.range total) with
  | error e =>
    rw [hinit] at h
    cases h
  | ok seeds =>
    rw [hinit] at h
    simp only [Except.map] at h ⊢
    have hs : s = processCameras ctx visAll cams (engineFuel total) seeds
        (deselectAll prior) := by
      cases h
      rfl
    refine ⟨_, rfl, ?_⟩
    rw [hs, processCameras_append]
    exact processCameras_mono ctx visAll extra (engineFuel total) seeds _

/-- C6 witness: one camera already selects face 0; appending a second
camera keeps it selected. -/
theorem C6_more_cameras_superset_witness :
    ∃ s' : Finset ℕ,
      select_visible_faces_multi_cameras ⟨fun _ _ => false, fun _ => [], false⟩
          (fun _ _ => true) (fun l _ => l) 0 ([0] ++ [1]) 1 ∅ = Except.ok s' ∧
        ({0} : Finset ℕ) ⊆ s' :=
  C6_more_cameras_superset ⟨fun _ _ => false, fun _ => [], false⟩ (fun _ _ => true)
    (fun l _ => l) 0 [0] [1] 1 ∅ {0} (by decide)

/-! ### Claim C7 -/

/-- Completion of the while loop: with fuel above the measure
frontier length + (N + 1) * (N - checked count), where N bounds the face
universe, the loop always empties its frontier.  Each pop either discards
the face (frontier shrinks) or adds it to checked (checked grows within the
face universe), and the expansion can only re-grow the frontier to at most
N entries because the frontier is a duplicate-free subset of the
universe. -/
lemma visitLoop_completes (ctx : EngineCtx) (vis : ℕ → Bool) (allFaces : Finset ℕ)
    (hnbrs : ∀ f ∈ allFaces, ∀ g ∈ ctx.nbrs f, g ∈ allFaces) :
    ∀ (fuel : ℕ) (fr : List ℕ) (checked selected : Finset ℕ),
      fr.Nodup → (∀ f ∈ fr, f ∈ allFaces) → checked ⊆ allFaces →
      fr.length + (allFaces.card + 1) * (allFaces.card - checked.card) < fuel →
      (visitLoop ctx vis fuel fr checked selected).1 = true := by
  intro fuel
  induction fuel with
  | zero =>
    intro fr checked selected _ _ _ hmeas
    omega
  | succ n ih =>
    intro fr checked selected hnd hfr hch hmeas
    cases fr with
    | nil => rfl
    | cons f fr =>
      have hf : f ∈ allFaces := hfr f (List.mem_cons_self f fr)
      have hndt : fr.Nodup := hnd.of_cons
      have hfrt : ∀ a ∈ fr, a ∈ allFaces := fun a ha => hfr a (List.mem_cons_of_mem f ha)
      simp only [visitLoop]
      by_cases hskip : f ∈ checked ∨ f ∈ selected
      · rw [if_pos hskip]
        apply ih fr checked selected hndt hfrt hch
        simp only [List.length_cons] at hmeas
        omega
      · rw [if_neg hskip]
        have hfc : f ∉ checked := fun hmem => hskip (Or.inl hmem)
        have hcardlt : checked.card < allFaces.card :=
          Finset.card_lt_card ((Finset.ssubset_iff_of_subset hch).mpr ⟨f, hf, hfc⟩)
        have hch' : insert f checked ⊆ allFaces := Finset.insert_subset hf hch
        have hcards : (insert f checked).card = checked.card + 1 :=
          Finset.card_insert_of_not_mem hfc
        have hexpand : (allFaces.card + 1) * (allFaces.card - checked.card) =
            (allFaces.card + 1) * (allFaces.card - (checked.card + 1)) +
              (allFaces.card + 1) := by
          have hsplit : allFaces.card - checked.card =
              allFaces.card - (checked.card + 1) + 1 := by omega
          rw [hsplit]
          ring
        by_cases hv : vis f = true
        · rw [if_pos hv]
          set fr' := if ctx.experimental then
              expand ctx f fr (insert f checked) (insert f selected)
            else fr with hfr'
          have hnd' : fr'.Nodup := by
            rw [hfr']
            split
            · exact nodup_foldl_expandStep ctx f (insert f checked) (insert f selected) _
                fr hndt
            · exact hndt
          have hmem' : ∀ a ∈ fr', a ∈ allFaces := by
            intro a ha
            rw [hfr'] at ha
            revert ha
            split
            · intro ha
              rcases mem_foldl_expandStep ctx f (insert f checked) (insert f selected)
                  _ fr a ha with h' | h'
              · exact hfrt a h'
              · exact hnbrs f hf a h'
            · intro ha
              exact hfrt a ha
          apply ih fr' (insert f checked) (insert f selected) hnd' hmem' hch'
          have hlen : fr'.length ≤ allFaces.card := nodup_length_le_card hnd' hmem'
          rw [hcards]
          simp only [List.length_cons] at hmeas
          rw [hexpand] at hmeas
          generalize (allFaces.card + 1) * (allFaces.card - (checked.card + 1)) = M at hmeas ⊢
          omega
        · rw [if_neg hv]
          apply ih fr (insert f checked) selected hndt hfrt hch'
          rw [hcards]
          simp only [List.length_cons] at hmeas
          rw [hexpand] at hmeas
          generalize (allFaces.card + 1) * (allFaces.card - (checked.card + 1)) = M at hmeas ⊢
          omega

/-- C7: every camera pass terminates.  With the fuel the run supplies —
engineFuel N for a mesh whose faces form a duplicate-free universe of N
faces closed under the link-face relation — the while loop over the
frontier always runs to completion, emptying its frontier. -/
theorem C7_camera_pass_terminates (ctx : EngineCtx) (vis : ℕ → Bool)
    (allFaces : Finset ℕ) (seeds : List ℕ) (selected : Finset ℕ)
    (hnbrs : ∀ f ∈ allFaces, ∀ g ∈ ctx.nbrs f, g ∈ allFaces)
    (hnd : seeds.Nodup) (hseeds : ∀ f ∈ seeds, f ∈ allFaces) :
    (visitLoop ctx vis (engineFuel allFaces.card) seeds ∅ selected).1 = true := by
  apply visitLoop_completes ctx vis allFaces hnbrs _ seeds ∅ selected hnd hseeds
    (Finset.empty_subset allFaces)
  have hlen : seeds.length ≤ allFaces.card := nodup_length_le_card hnd hseeds
  unfold engineFuel
  simp only [Finset.card_empty, Nat.sub_zero]
  omega

/-- C7 witness: one face, one seed, empty neighbor map. -/
theorem C7_camera_pass_terminates_witness :
    (visitLoop ⟨fun _ _ => false, fun _ => [], false⟩ (fun _ => true)
        (engineFuel ({0} : Finset ℕ).card) [0] ∅ ∅).1 = true :=
  C7_camera_pass_terminates ⟨fun _ _ => false, fun _ => [], false⟩ (fun _ => true)
    {0} [0] ∅ (by intro f _ g hg; cases hg) (by decide) (by decide)

/-! ### Scene lemmas for claims C8 to C10 -/

/-- A find? hit surviving a filter is still the first hit. -/
lemma find?_filter_keep {α : Type} (l : List α) (p q : α → Bool) (a : α)
    (h : l.find? p = some a) (hq : q a = true) :
    (l.filter q).find? p = some a := by
  induction l with
  | nil => cases h
  | cons x t ih =>
    rw [List.find?_cons] at h
    cases hp : p x with
    | true =>
      rw [hp] at h
      cases h
      rw [List.filter_cons, if_pos hq, List.find?_cons, hp]
    | false =>
      rw [hp] at h
      rw [List.filter_cons]
      by_cases hqx : q x = true
      · rw [if_pos hqx, List.find?_cons, hp]
        exact ih h
      · rw [if_neg hqx]
        exact ih h

/-- The target object's identifier, mesh and mesh type, tracked through the
scene states of a run. -/
def tracksObj (i : ℕ) (m : MeshData) (s : Scene) : Prop :=
  ∃ ob : SceneObj, sceneObjById s i = some ob ∧ ob.mesh = m ∧ ob.type = ObjType.meshObj

/-- Reading the tracked mesh back. -/
lemma tracksObj_objMesh {i : ℕ} {m : MeshData} {s : Scene} (h : tracksObj i m s) :
    objMeshById s i = some m := by
  obtain ⟨ob, h1, h2, _⟩ := h
  unfold objMeshById
  rw [h1, Option.map_some']
  rw [h2]

/-- Deleting all cameras keeps the tracked mesh object. -/
lemma tracksObj_delete_all_cameras {i : ℕ} {m : MeshData} {s : Scene}
    (h : tracksObj i m s) : tracksObj i m (delete_all_cameras s) := by
  obtain ⟨ob, h1, h2, h3⟩ := h
  refine ⟨ob, ?_, h2, h3⟩
  unfold delete_all_cameras sceneObjById
  exact find?_filter_keep _ _ _ _ h1 (by rw [h3]; rfl)

/-- Creating cameras (appended at the end of the object list) keeps the
tracked mesh object. -/
lemma tracksObj_create_cameras {i : ℕ} {m : MeshData} (rows cpr : ℕ) {s : Scene}
    (h : tracksObj i m s) : tracksObj i m (create_cameras rows cpr s).2 := by
  obtain ⟨ob, h1, h2, h3⟩ := h
  refine ⟨ob, ?_, h2, h3⟩
  unfold create_cameras sceneObjById
  simp only [List.find?_append]
  unfold sceneObjById at h1
  rw [h1]
  rfl

/-- A per-object update that keeps identifier, type and mesh keeps the
tracked mesh object. -/
lemma tracksObj_mapObjAt {i : ℕ} {m : MeshData} {s : Scene} (j : ℕ)
    (g : SceneObj → SceneObj)
    (hg : ∀ ob, (g ob).id = ob.id ∧ (g ob).type = ob.type ∧ (g ob).mesh = ob.mesh)
    (h : tracksObj i m s) : tracksObj i m (mapObjAt j g s) := by
  obtain ⟨ob, h1, h2, h3⟩ := h
  refine ⟨if ob.id = j then g ob else ob, ?_, ?_, ?_⟩
  · unfold mapObjAt sceneObjById
    simp only [List.find?_map]
    have hpred : ((fun o : SceneObj => o.id == i) ∘ fun o : SceneObj =>
        if o.id = j then g o else o) = fun o : SceneObj => o.id == i := by
      funext o
      simp only [Function.comp]
      by_cases hj : o.id = j
      · rw [if_pos hj, (hg o).1]
      · rw [if_neg hj]
    rw [hpred]
    unfold sceneObjById at h1
    rw [h1, Option.map_some']
  · by_cases hj : ob.id = j
    · rw [if_pos hj, (hg ob).2.2, h2]
    · rw [if_neg hj, h2]
  · by_cases hj : ob.id = j
    · rw [if_pos hj, (hg ob).2.1, h3]
    · rw [if_neg hj, h3]

/-- Shape of a successful scene-level visibility run: the scene is either
untouched or updated only in the target object's select flags. -/
lemma scene_select_visible_shape (visAll similar : ℕ → ℕ → Bool)
    (sampler : List ℕ → ℕ → List ℕ) (props : Props) (objId : ℕ) (cams : List ℕ)
    (s : Scene) (total : ℕ) (s4 : Scene)
    (h : scene_select_visible visAll similar sampler props objId cams s =
      Except.ok (total, s4)) :
    s4 = s ∨ ∃ newSel : Finset ℕ,
      s4 = mapObjAt objId (fun ob => { ob with sel := newSel }) s := by
  unfold scene_select_visible at h
  cases hf : sceneObjById s objId with
  | none =>
    rw [hf] at h
    cases h
    exact Or.inl rfl
  | some o =>
    rw [hf] at h
    dsimp only at h
    cases hsel : select_visible_faces_multi_cameras
        (ctxOfMesh similar props.experimental o.mesh) visAll sampler
        props.sampling_ratio cams o.mesh.faces.length o.sel with
    | error e =>
      rw [hsel] at h
      simp only [Except.map] at h
      cases h
    | ok newSel =>
      rw [hsel] at h
      simp only [Except.map] at h
      cases h
      exact Or.inr ⟨newSel, rfl⟩

/-- The active object is found in the scene under its own identifier. -/
lemma activeObj_self {s : Scene} {o : SceneObj} (h : activeObj s = some o) :
    sceneObjById s o.id = some o := by
  unfold activeObj at h
  cases ha : s.active with
  | none =>
    rw [ha] at h
    cases h
  | some i =>
    rw [ha] at h
    dsimp only [Option.bind] at h
    have hid : o.id = i := by
      have hp := List.find?_some h
      simpa using hp
    rw [hid]
    exact h

/-! ### Claim C8 -/

/-- Visibility stub: no face is ever seen. -/
def visNone : ℕ → ℕ → Bool := fun _ _ => false

/-- Similarity stub. -/
def simNone : ℕ → ℕ → Bool := fun _ _ => false

/-- Prefix sampler: deterministic stand-in for random.sample. -/
def samplerTake : List ℕ → ℕ → List ℕ := fun l k => l.take k

/-- Operator parameters for the zero-face scenario: delete mode, merge
options off, exhaustive strategy. -/
def propsC8 : Props :=
  { rows := 2, cameras_per_row := 2, delete_select_mode := DeleteSelectMode.delete
  , keep_cameras := false, experimental := false, sampling_ratio := 30
  , merge_meshes := false, merge_by_distance := false }

/-- Scene with an active zero-face mesh (identifier 0) and one pre-existing
camera object (identifier 1). -/
def sceneC8 : Scene :=
  { objects := [⟨0, ObjType.meshObj, emptyMesh, ∅⟩, ⟨1, ObjType.cameraObj, emptyMesh, ∅⟩]
  , active := some 0, hasCamCollection := false, nextId := 2 }

/-- C8 counterexample: an invocation on a mesh with zero faces is not
surfaced as a failure and does not leave the scene unmutated: with
experimental off the operator runs to FINISHED, and along the way it
deletes the pre-existing camera object (identifier 1) from the scene. -/
theorem C8_counterexample :
    finishedWithoutObj (execute visNone simNone samplerTake propsC8 sceneC8) 1 = true := by
  decide

/-- C8 amended: an invocation whose target object is missing or not a mesh
is surfaced as an ERROR report with CANCELLED status, and when merge_meshes
is off the scene is returned exactly unchanged.  A mesh with zero faces,
however, is not rejected: with experimental off the run proceeds to
FINISHED after mutating the scene cameras (counterexample above), and with
experimental on it raises the unhandled random.sample ValueError. -/
theorem C8_invalid_target_cancels (visAll similar : ℕ → ℕ → Bool)
    (sampler : List ℕ → ℕ → List ℕ) (props : Props) (s : Scene)
    (h : ∀ o : SceneObj, (targetObj props s).1 = some o → o.type ≠ ObjType.meshObj) :
    execute visAll similar sampler props s =
      Except.ok (OpStatus.cancelled, (targetObj props s).2) ∧
    (props.merge_meshes = false → (targetObj props s).2 = s) := by
  constructor
  · simp only [execute]
    cases ht : (targetObj props s).1 with
    | none => rfl
    | some o =>
      dsimp only
      rw [if_neg (h o ht)]
  · intro hmm
    unfold targetObj
    rw [hmm]
    simp

/-- C8 witness: a scene with no active object cancels unchanged. -/
theorem C8_invalid_target_cancels_witness :
    execute visNone simNone samplerTake propsC8
        ⟨[], none, false, 0⟩ =
      Except.ok (OpStatus.cancelled, (targetObj propsC8 ⟨[], none, false, 0⟩).2) ∧
    (propsC8.merge_meshes = false →
      (targetObj propsC8 ⟨[], none, false, 0⟩).2 = ⟨[], none, false, 0⟩) :=
  C8_invalid_target_cancels visNone simNone samplerTake propsC8 ⟨[], none, false, 0⟩
    (by intro o ho; simp [targetObj, activeObj, propsC8] at ho)

/-! ### Claim C9 -/

/-- Parameters for the outer-select scenario with the (default-on) weld
option. -/
def propsC9 : Props :=
  { propsC8 with delete_select_mode := DeleteSelectMode.outerSelect
               , merge_by_distance := true }

/-- Scene with one mesh whose first two vertices coincide. -/
def sceneC9 : Scene :=
  { objects := [⟨0, ObjType.meshObj,
      ⟨[(0, 0, 0), (0, 0, 0), (1, 0, 0)], [[0, 1, 2]]⟩, ∅⟩]
  , active := some 0, hasCamCollection := false, nextId := 1 }

/-- C9 counterexample: in OUTER_SELECT mode with the default-on
merge-by-distance option the run merges the mesh's two coincident vertices
— 3 vertices before, 2 after — so vertices are removed after all; and
although no face was found visible (the visibility stub never passes), the
final selection is the full face set {0}, because execute ends with a
select-all for its statistics count, clobbering the visible-face selection
it was meant to hand back to the caller. -/
theorem C9_counterexample :
    (objMeshById sceneC9 0).map (fun m => m.verts.length) = some 3 ∧
    (execute visNone simNone samplerTake propsC9 sceneC9).map
        (fun p => ((objMeshById p.2 0).map fun m => m.verts.length,
                   objSelById p.2 0)) =
      Except.ok (some 2, some ({0} : Finset ℕ)) := by
  constructor
  · rfl
  · decide

/-- C9 amended: in OUTER_SELECT mode the face-deletion step is skipped, and
when merge_meshes and merge_by_distance are both off, a successful run
preserves the target mesh's vertices and faces exactly (only select flags
change).  With merge_by_distance on, vertices within the weld threshold are
still merged, and in every case the final selection is the full face set
rather than the visible faces (counterexample above). -/
theorem C9_outer_select_keeps_topology (visAll similar : ℕ → ℕ → Bool)
    (sampler : List ℕ → ℕ → List ℕ) (props : Props) (s : Scene) (o : SceneObj)
    (st : OpStatus) (s' : Scene)
    (hmode : props.delete_select_mode = DeleteSelectMode.outerSelect)
    (hmm : props.merge_meshes = false) (hmd : props.merge_by_distance = false)
    (hobj : activeObj s = some o) (htype : o.type = ObjType.meshObj)
    (hrun : execute visAll similar sampler props s = Except.ok (st, s')) :
    objMeshById s' o.id = some o.mesh := by
  have hts : targetObj props s = (some o, s) := by
    unfold targetObj
    rw [hmm]
    simp [hobj]
  unfold execute at hrun
  rw [hts] at hrun
  dsimp only at hrun
  rw [htype, if_pos rfl] at hrun
  cases hsel : scene_select_visible visAll similar sampler props o.id
      (create_cameras props.rows props.cameras_per_row (delete_all_cameras s)).1
      (create_cameras props.rows props.cameras_per_row (delete_all_cameras s)).2 with
  | error e =>
    rw [hsel] at hrun
    cases hrun
  | ok p =>
    obtain ⟨total, s4⟩ := p
    rw [hsel] at hrun
    dsimp only at hrun
    rw [hmode] at hrun
    rw [if_neg (by decide : ¬(DeleteSelectMode.outerSelect = DeleteSelectMode.delete))]
      at hrun
    rw [hmd] at hrun
    rw [if_neg (by decide : ¬(false = true))] at hrun
    have htr0 : tracksObj o.id o.mesh s := ⟨o, activeObj_self hobj, rfl, htype⟩
    have htr3 := tracksObj_create_cameras props.rows props.cameras_per_row
      (tracksObj_delete_all_cameras htr0)
    have htr4 : tracksObj o.id o.mesh s4 := by
      rcases scene_select_visible_shape visAll similar sampler props o.id _ _ _ _ hsel
        with rfl | ⟨newSel, rfl⟩
      · exact htr3
      · exact tracksObj_mapObjAt o.id _ (fun ob => ⟨rfl, rfl, rfl⟩) htr3
    have htr7 : tracksObj o.id o.mesh (selectAllFaces o.id s4) := by
      unfold selectAllFaces
      exact tracksObj_mapObjAt o.id _ (fun ob => ⟨rfl, rfl, rfl⟩) htr4
    cases hkeep : props.keep_cameras with
    | true =>
      rw [hkeep, if_pos rfl] at hrun
      cases hrun
      exact tracksObj_objMesh htr7
    | false =>
      rw [hkeep, if_neg (by decide : ¬(false = true))] at hrun
      cases hrun
      exact tracksObj_objMesh (tracksObj_delete_all_cameras htr7)

/-- Parameters for the witness run: outer-select, every merge option off. -/
def propsC9b : Props :=
  { propsC8 with delete_select_mode := DeleteSelectMode.outerSelect }

/-- Final scene of the witness run. -/
def c9FinalScene : Scene :=
  match execute visNone simNone samplerTake propsC9b sceneC9 with
  | Except.ok (_, t) => t
  | _ => sceneC9

/-- C9 witness: with merges off, the outer-select run returns the mesh's
vertices and faces unchanged. -/
theorem C9_outer_select_keeps_topology_witness :
    objMeshById c9FinalScene 0 =
      some ⟨[(0, 0, 0), (0, 0, 0), (1, 0, 0)], [[0, 1, 2]]⟩ :=
  C9_outer_select_keeps_topology visNone simNone samplerTake propsC9b sceneC9
    ⟨0, ObjType.meshObj, ⟨[(0, 0, 0), (0, 0, 0), (1, 0, 0)], [[0, 1, 2]]⟩, ∅⟩
    OpStatus.finished c9FinalScene rfl rfl rfl (by decide) rfl (by decide)

/-! ### Claim C10 -/

/-- With duplicate-free identifiers, two scene objects with the same
identifier are the same object. -/
lemma nodup_id_unique {l : List SceneObj} (h : (l.map SceneObj.id).Nodup) :
    ∀ a ∈ l, ∀ b ∈ l, a.id = b.id → a = b := by
  induction l with
  | nil =>
    intro a ha
    cases ha
  | cons x t ih =>
    rw [List.map_cons, List.nodup_cons] at h
    obtain ⟨hx, ht⟩ := h
    intro a ha b hb hab
    rcases List.mem_cons.mp ha with rfl | ha'
    · rcases List.mem_cons.mp hb with rfl | hb'
      · rfl
      · rw [hab] at hx
        exact absurd (List.mem_map_of_mem SceneObj.id hb') hx
    · rcases List.mem_cons.mp hb with rfl | hb'
      · rw [← hab] at hx
        exact absurd (List.mem_map_of_mem SceneObj.id ha') hx
      · exact ih ht a ha' b hb' hab

/-- Merging meshes never invents identifiers or changes an object's type:
every object of the merged scene corresponds to an object of the original
scene with the same identifier and type. -/
lemma merge_preserves_id_type (s : Scene) :
    ∀ o' ∈ (merge_all_meshes s).2.objects,
      ∃ o ∈ s.objects, o'.id = o.id ∧ o'.type = o.type := by
  intro o' ho'
  unfold merge_all_meshes at ho'
  cases hf : s.objects.find? (fun o => o.type == ObjType.meshObj) with
  | none =>
    rw [hf] at ho'
    exact ⟨o', ho', rfl, rfl⟩
  | some m0 =>
    rw [hf] at ho'
    dsimp only at ho'
    rcases List.mem_filterMap.mp ho' with ⟨o, ho, hfo⟩
    by_cases hm : (o.type == ObjType.meshObj) = true
    · rw [if_pos hm] at hfo
      by_cases hid : (o.id == m0.id) = true
      · rw [if_pos hid] at hfo
        injection hfo with hfo'
        subst hfo'
        exact ⟨o, ho, rfl, rfl⟩
      · rw [if_neg hid] at hfo
        cases hfo
    · rw [if_neg hm] at hfo
      injection hfo with hfo'
      subst hfo'
      exact ⟨o, ho, rfl, rfl⟩

/-- Merging meshes keeps the fresh-identifier counter. -/
lemma merge_nextId (s : Scene) : (merge_all_meshes s).2.nextId = s.nextId := by
  unfold merge_all_meshes
  cases hf : s.objects.find? (fun o => o.type == ObjType.meshObj) with
  | none => rfl
  | some m0 => rfl

/-- Resolving the target never invents identifiers or changes a type. -/
lemma targetObj_preserves_id_type (props : Props) (s : Scene) :
    ∀ o' ∈ (targetObj props s).2.objects,
      ∃ o ∈ s.objects, o'.id = o.id ∧ o'.type = o.type := by
  unfold targetObj
  by_cases hm : props.merge_meshes = true
  · rw [if_pos hm]
    dsimp only
    exact merge_preserves_id_type s
  · rw [if_neg hm]
    intro o' ho'
    exact ⟨o', ho', rfl, rfl⟩

/-- Resolving the target keeps the fresh-identifier counter. -/
lemma targetObj_nextId (props : Props) (s : Scene) :
    (targetObj props s).2.nextId = s.nextId := by
  unfold targetObj
  by_cases hm : props.merge_meshes = true
  · rw [if_pos hm]
    dsimp only
    exact merge_nextId s
  · rw [if_neg hm]

/-- No object of the scene carries the given identifier. -/
def noObjWithId (i : ℕ) (s : Scene) : Prop :=
  ∀ o ∈ s.objects, o.id ≠ i

/-- Deleting all cameras wipes an identifier carried only by cameras. -/
lemma noObjWithId_delete_first (i : ℕ) (s : Scene)
    (h : ∀ o ∈ s.objects, o.id = i → o.type = ObjType.cameraObj) :
    noObjWithId i (delete_all_cameras s) := by
  intro o ho hoi
  unfold delete_all_cameras at ho
  dsimp only at ho
  have hmem := List.mem_filter.mp ho
  have hcam := h o hmem.1 hoi
  have := hmem.2
  rw [hcam] at this
  simp at this

/-- Camera deletion keeps an absent identifier absent. -/
lemma noObjWithId_delete (i : ℕ) (s : Scene) (h : noObjWithId i s) :
    noObjWithId i (delete_all_cameras s) := by
  intro o ho
  exact h o (List.mem_filter.mp ho).1

/-- Camera creation only adds identifiers at or above the counter, so an
identifier below the counter stays absent. -/
lemma noObjWithId_create (i rows cpr : ℕ) (s : Scene) (h : noObjWithId i s)
    (hb : i < s.nextId) : noObjWithId i (create_cameras rows cpr s).2 := by
  intro o ho hoi
  unfold create_cameras at ho
  dsimp only at ho
  rcases List.mem_append.mp ho with h' | h'
  · exact h o h' hoi
  · rcases List.mem_map.mp h' with ⟨j, hj, rfl⟩
    rcases List.mem_map.mp hj with ⟨k, _, rfl⟩
    dsimp only at hoi
    omega

/-- A per-object update preserving identifiers keeps an absent identifier
absent. -/
lemma noObjWithId_mapObjAt (i j : ℕ) (g : SceneObj → SceneObj)
    (hg : ∀ ob, (g ob).id = ob.id) (s : Scene) (h : noObjWithId i s) :
    noObjWithId i (mapObjAt j g s) := by
  intro o ho hoi
  unfold mapObjAt at ho
  dsimp only at ho
  rcases List.mem_map.mp ho with ⟨ob, hob, rfl⟩
  apply h ob hob
  by_cases hj : ob.id = j
  · rw [if_pos hj, hg ob] at hoi
    exact hoi
  · rw [if_neg hj] at hoi
    exact hoi

/-- Select-all keeps an absent identifier absent. -/
lemma noObjWithId_selectAllFaces (i j : ℕ) (s : Scene) (h : noObjWithId i s) :
    noObjWithId i (selectAllFaces j s) := by
  unfold selectAllFaces
  exact noObjWithId_mapObjAt i j
    (fun o => { o with sel := Finset.range o.mesh.faces.length }) (fun ob => rfl) s h

/-- C10 counterexample: an invocation without a usable mesh returns
CANCELLED with the scene untouched, so it does not begin by deleting the
cameras — the pre-existing camera object (identifier 5) survives this
invocation. -/
theorem C10_counterexample :
    execute visNone simNone samplerTake propsC8
        ⟨[⟨5, ObjType.cameraObj, emptyMesh, ∅⟩], none, false, 6⟩ =
      Except.ok (OpStatus.cancelled,
        ⟨[⟨5, ObjType.cameraObj, emptyMesh, ∅⟩], none, false, 6⟩) ∧
    sceneHasObjId ⟨[⟨5, ObjType.cameraObj, emptyMesh, ∅⟩], none, false, 6⟩ 5 = true := by
  constructor
  · rfl
  · rfl

/-- C10 amended: every invocation that passes the mesh-validity check (and
so finishes) deletes every camera object present in the scene data —
including cameras that existed before the run — before creating the rig,
and whether or not keepCameras is set, no pre-existing camera survives such
a run: every object of the final scene has an identifier different from the
pre-existing camera's.  An invocation that fails the mesh check, by
contrast, leaves the cameras untouched (counterexample above). -/
theorem C10_run_kills_preexisting_cameras (visAll similar : ℕ → ℕ → Bool)
    (sampler : List ℕ → ℕ → List ℕ) (props : Props) (s : Scene) (st : OpStatus)
    (s' : Scene) (c : SceneObj)
    (hnodup : (s.objects.map SceneObj.id).Nodup)
    (hbound : ∀ o ∈ s.objects, o.id < s.nextId)
    (hc : c ∈ s.objects) (hcam : c.type = ObjType.cameraObj)
    (hrun : execute visAll similar sampler props s = Except.ok (st, s'))
    (hst : st = OpStatus.finished) :
    ∀ o ∈ s'.objects, o.id ≠ c.id := by
  subst hst
  unfold execute at hrun
  dsimp only at hrun
  cases ht : (targetObj props s).1 with
  | none =>
    rw [ht] at hrun
    dsimp only at hrun
    simp at hrun
  | some o =>
    rw [ht] at hrun
    dsimp only at hrun
    by_cases htype : o.type = ObjType.meshObj
    · rw [if_pos htype] at hrun
      have hP2 : noObjWithId c.id (delete_all_cameras (targetObj props s).2) := by
        apply noObjWithId_delete_first
        intro o' ho' hoi
        obtain ⟨o0, ho0, hid, htyp⟩ := targetObj_preserves_id_type props s o' ho'
        have ho0c : o0 = c :=
          nodup_id_unique hnodup o0 ho0 c hc (by rw [← hid, hoi])
        rw [htyp, ho0c, hcam]
      have hbound2 : c.id <
          (delete_all_cameras (targetObj props s).2).nextId := by
        have : (delete_all_cameras (targetObj props s).2).nextId =
            (targetObj props s).2.nextId := rfl
        rw [this, targetObj_nextId]
        exact hbound c hc
      have hP3 : noObjWithId c.id
          (create_cameras props.rows props.cameras_per_row
            (delete_all_cameras (targetObj props s).2)).2 :=
        noObjWithId_create _ _ _ _ hP2 hbound2
      cases hsel : scene_select_visible visAll similar sampler props o.id
          (create_cameras props.rows props.cameras_per_row
            (delete_all_cameras (targetObj props s).2)).1
          (create_cameras props.rows props.cameras_per_row
            (delete_all_cameras (targetObj props s).2)).2 with
      | error e =>
        rw [hsel] at hrun
        cases hrun
      | ok p =>
        obtain ⟨total, s4⟩ := p
        rw [hsel] at hrun
        dsimp only at hrun
        have hP4 : noObjWithId c.id s4 := by
          rcases scene_select_visible_shape visAll similar sampler props o.id _ _ _ _
              hsel with rfl | ⟨newSel, rfl⟩
          · exact hP3
          · exact noObjWithId_mapObjAt _ _
              (fun ob => { id := ob.id, type := ob.type, mesh := ob.mesh, sel := newSel })
              (fun ob => rfl) _ hP3
        have hP5 : noObjWithId c.id
            (if props.delete_select_mode = DeleteSelectMode.delete then
              mapObjAt o.id
                (fun ob => { id := ob.id, type := ob.type
                           , mesh := delete_invisible_faces ob.mesh ob.sel, sel := ∅ }) s4
            else s4) := by
          split
          · exact noObjWithId_mapObjAt _ _
              (fun ob => { id := ob.id, type := ob.type
                         , mesh := delete_invisible_faces ob.mesh ob.sel, sel := ∅ })
              (fun ob => rfl) _ hP4
          · exact hP4
        have hP6 : ∀ u : Scene, noObjWithId c.id u → noObjWithId c.id
            (if props.merge_by_distance = true then
              mapObjAt o.id
                (fun ob => { id := ob.id, type := ob.type
                           , mesh := remove_doubles ob.mesh, sel := ob.sel })
                (selectAllFaces o.id u)
            else u) := by
          intro u hu
          split
          · exact noObjWithId_mapObjAt _ _
              (fun ob => { id := ob.id, type := ob.type
                         , mesh := remove_doubles ob.mesh, sel := ob.sel })
              (fun ob => rfl) _ (noObjWithId_selectAllFaces _ _ _ hu)
          · exact hu
        injection hrun with hpair
        injection hpair with _ hs'
        subst hs'
        split
        · exact noObjWithId_selectAllFaces _ _ _ (hP6 _ hP5)
        · exact noObjWithId_delete _ _ (noObjWithId_selectAllFaces _ _ _ (hP6 _ hP5))
    · rw [if_neg htype] at hrun
      simp at hrun

/-- Scene for the C10 witness: a one-face mesh and a pre-existing camera. -/
def sceneC10b : Scene :=
  { objects := [⟨0, ObjType.meshObj, ⟨[(0, 0, 0)], [[0]]⟩, ∅⟩,
                ⟨1, ObjType.cameraObj, emptyMesh, ∅⟩]
  , active := some 0, hasCamCollection := false, nextId := 2 }

/-- Final scene of the C10 witness run. -/
def c10FinalScene : Scene :=
  match execute visNone simNone samplerTake propsC8 sceneC10b with
  | Except.ok (_, t) => t
  | _ => sceneC10b

/-- C10 witness: after a finishing run, no object of the final scene
carries the pre-existing camera's identifier 1. -/
theorem C10_run_kills_preexisting_cameras_witness :
    noObjWithId 1 c10FinalScene :=
  C10_run_kills_preexisting_cameras visNone simNone samplerTake propsC8 sceneC10b
    OpStatus.finished c10FinalScene ⟨1, ObjType.cameraObj, emptyMesh, ∅⟩
    (by decide) (by decide) (by decide) rfl (by decide) rfl

end HGR
